import Mathlib

/-!
Shallow embedding of the rule-based error classifier: ignore rules, the four
string-matching strategies with their fallback semantics, single-rule
evaluation, the error matcher predicate, and the three-tier merge. The
matching engine is embedded from common/error_matcher.go; collaborating
declarations that live outside the provided source files (the wildcard
primitive, the configuration record, the structured-error capability) are
modelled from the specification and marked as such.
-/

namespace Erpc

/-- Anchored glob matching helper: true when some suffix of the list (the list
itself included, the empty suffix included) satisfies the given predicate. -/
def anySuffix (f : List Char → Bool) : List Char → Bool
  | [] => f []
  | t :: ts => f (t :: ts) || anySuffix f ts

/-- Modelled from the spec: the wildcard primitive used by the matcher lives
outside the provided source files. Per the spec, a star matches zero or more
arbitrary characters, no other wildcard characters are defined, and the match
is anchored to the whole target. -/
def globMatch : List Char → List Char → Bool
  | [], ts => ts.isEmpty
  | p :: ps, ts =>
    if p == '*' then anySuffix (globMatch ps) ts
    else
      match ts with
      | [] => false
      | t :: ts2 => p == t && globMatch ps ts2

/-- Modelled from the spec: WildcardMatch mirrors the fallible signature of
the source API. In the wildcard language of the spec only the star character
is special, so no pattern is structurally invalid and the error branch of the
result never arises. -/
def WildcardMatch (pattern target : String) : Except String Bool :=
  Except.ok (globMatch pattern.data target.data)

/-- Abstract syntax of the core regular-expression constructs the matcher
relies on, modelling the standard regex library used by the source: literal
characters, the any-character dot, character classes, concatenation,
alternation and the star, plus and question-mark repetitions (the latter two
desugared during parsing). -/
inductive Regex where
  | void
  | epsilon
  | char (c : Char)
  | anyChar
  | cls (negated : Bool) (ranges : List (Char × Char))
  | concat (r1 r2 : Regex)
  | alt (r1 r2 : Regex)
  | star (r : Regex)
  deriving Repr, DecidableEq

/-- Nullability: whether the regex accepts the empty string. -/
def Regex.nullable : Regex → Bool
  | .void => false
  | .epsilon => true
  | .char _ => false
  | .anyChar => false
  | .cls _ _ => false
  | .concat r1 r2 => r1.nullable && r2.nullable
  | .alt r1 r2 => r1.nullable || r2.nullable
  | .star _ => true

/-- Membership of a character in a character class given as ranges. -/
def clsMatches (negated : Bool) (ranges : List (Char × Char)) (c : Char) : Bool :=
  let inside := ranges.any fun pr => decide (pr.1 ≤ c) && decide (c ≤ pr.2)
  if negated then !inside else inside

/-- Brzozowski derivative of a regex with respect to one character. -/
def Regex.deriv (c : Char) : Regex → Regex
  | .void => .void
  | .epsilon => .void
  | .char d => if c == d then .epsilon else .void
  | .anyChar => .epsilon
  | .cls neg ranges => if clsMatches neg ranges c then .epsilon else .void
  | .concat r1 r2 =>
    if r1.nullable then .alt (.concat (r1.deriv c) r2) (r2.deriv c)
    else .concat (r1.deriv c) r2
  | .alt r1 r2 => .alt (r1.deriv c) (r2.deriv c)
  | .star r => .concat (r.deriv c) (.star r)

/-- Anchored acceptance: whether the regex matches the whole character list. -/
def reMatches : Regex → List Char → Bool
  | re, [] => re.nullable
  | re, c :: cs => reMatches (re.deriv c) cs

/-- Whether the regex matches some prefix of the character list. -/
def rePrefixMatch : Regex → List Char → Bool
  | re, [] => re.nullable
  | re, c :: cs => re.nullable || rePrefixMatch (re.deriv c) cs

/-- Unanchored search: whether the regex matches some contiguous region of the
character list, the semantics of the standard MatchString operation. -/
def reSearch : Regex → List Char → Bool
  | re, [] => re.nullable
  | re, c :: cs => rePrefixMatch re (c :: cs) || reSearch re cs

/-- Application of the postfix repetition operators star, plus and question
mark to a parsed atom; plus and question mark are desugared. -/
def applyRepeatOps : Regex → List Char → Regex × List Char
  | r, '*' :: rest => applyRepeatOps (.star r) rest
  | r, '+' :: rest => applyRepeatOps (.concat r (.star r)) rest
  | r, '?' :: rest => applyRepeatOps (.alt r .epsilon) rest
  | r, rest => (r, rest)

/-- Reading of a character-class body after the opening bracket: items are
single characters or dash-separated ranges; reaching the end of the pattern
before the closing bracket is a compilation error, as in the standard regex
library. -/
def parseClassItems : List Char → List (Char × Char) →
    Except String (List (Char × Char) × List Char)
  | [], _ => .error "missing closing bracket"
  | ']' :: rest, acc => .ok (acc.reverse, rest)
  | a :: '-' :: b :: rest, acc =>
    if b == ']' then .ok (((a, a) :: ('-', '-') :: acc).reverse, rest)
    else parseClassItems rest ((a, b) :: acc)
  | a :: rest, acc => parseClassItems rest ((a, a) :: acc)

mutual

/-- Alternation level of the regex grammar, fuelled for termination. -/
def parseAlt : Nat → List Char → Except String (Regex × List Char)
  | 0, _ => .error "expression too complex"
  | fuel + 1, cs => do
    let (r1, rest) ← parseConcat fuel cs
    match rest with
    | '|' :: rest2 => do
      let (r2, rest3) ← parseAlt fuel rest2
      Except.ok (Regex.alt r1 r2, rest3)
    | _ => Except.ok (r1, rest)

/-- Concatenation level of the regex grammar. -/
def parseConcat : Nat → List Char → Except String (Regex × List Char)
  | 0, _ => .error "expression too complex"
  | fuel + 1, cs =>
    match cs with
    | [] => Except.ok (Regex.epsilon, [])
    | ')' :: _ => Except.ok (Regex.epsilon, cs)
    | '|' :: _ => Except.ok (Regex.epsilon, cs)
    | _ => do
      let (r1, rest) ← parseRepeat fuel cs
      let (r2, rest2) ← parseConcat fuel rest
      Except.ok (Regex.concat r1 r2, rest2)

/-- Repetition level: one atom followed by postfix operators. -/
def parseRepeat : Nat → List Char → Except String (Regex × List Char)
  | 0, _ => .error "expression too complex"
  | fuel + 1, cs => do
    let (a, rest) ← parseAtom fuel cs
    Except.ok (applyRepeatOps a rest)

/-- Atom level: group, character class, dot, escape or literal character. A
dangling repetition operator, an unterminated group, an unterminated class and
a trailing backslash are compilation errors, as in the standard library. -/
def parseAtom : Nat → List Char → Except String (Regex × List Char)
  | 0, _ => .error "expression too complex"
  | fuel + 1, cs =>
    match cs with
    | [] => .error "unexpected end of expression"
    | '(' :: rest => do
      let (r, rest2) ← parseAlt fuel rest
      match rest2 with
      | ')' :: rest3 => Except.ok (r, rest3)
      | _ => Except.error "missing closing parenthesis"
    | '[' :: '^' :: rest => do
      let (items, rest2) ← parseClassItems rest []
      Except.ok (Regex.cls true items, rest2)
    | '[' :: rest => do
      let (items, rest2) ← parseClassItems rest []
      Except.ok (Regex.cls false items, rest2)
    | '.' :: rest => Except.ok (Regex.anyChar, rest)
    | '\\' :: c :: rest => Except.ok (Regex.char c, rest)
    | '\\' :: [] => .error "trailing backslash"
    | '*' :: _ => .error "missing argument to repetition operator"
    | '+' :: _ => .error "missing argument to repetition operator"
    | '?' :: _ => .error "missing argument to repetition operator"
    | c :: rest => Except.ok (Regex.char c, rest)

end

/-- Compilation of a whole pattern, modelling the compile step of the
standard regex library over the core constructs: the pattern must be consumed
entirely, and malformed input yields an error value instead of a panic. -/
def compileRegex (pattern : String) : Except String Regex := do
  let cs := pattern.data
  let (r, rest) ← parseAlt (4 * cs.length + 8) cs
  match rest with
  | [] => Except.ok r
  | _ => Except.error "unexpected closing parenthesis"

/-- Unanchored boolean match of a compiled regex against a string, modelling
the MatchString operation of the standard regex library. -/
def reMatchString (re : Regex) (target : String) : Bool :=
  reSearch re target.data

/-- Model of the standard substring containment test used by the source:
true when the second string occurs contiguously anywhere inside the first. -/
def sContains (s substr : String) : Bool :=
  anySuffix (fun suffix => List.isPrefixOf substr.data suffix) s.data

/-- Modelled from the spec: the match-type is a string-valued enumeration
declared in configuration code outside the provided source files; the
recognized values are exact, substring, wildcard and regex, and any other
value falls back to substring semantics. -/
abbrev ErrorMatchType := String

/-- Recognized match-type value for exact matching. -/
def ErrorMatchTypeExact : ErrorMatchType := "exact"

/-- Recognized match-type value for substring matching. -/
def ErrorMatchTypeSubstring : ErrorMatchType := "substring"

/-- Recognized match-type value for wildcard matching. -/
def ErrorMatchTypeWildcard : ErrorMatchType := "wildcard"

/-- Recognized match-type value for regex matching. -/
def ErrorMatchTypeRegex : ErrorMatchType := "regex"

/-- Modelled from the spec: the ignore-rule record is declared in
configuration code outside the provided source files; a rule carries an
optional code pattern, an optional message pattern (the empty string meaning
absent) and a match type. -/
structure IgnoreErrorConfig where
  Code : String := ""
  Message : String := ""
  MatchType : ErrorMatchType := ""
  deriving Repr, DecidableEq

/-- Modelled from the spec: the error values observed by the matcher. A base
error is a structured error exposing a machine-readable code next to its
message (the StandardError capability of the source); a plain error carries
only a message; a wrap error decorates an inner error with leading text and
does not itself expose the inner code, since the matcher never unwraps. -/
inductive GoError where
  | baseError (code : String) (message : String)
  | plainError (message : String)
  | wrapError (text : String) (inner : GoError)
  deriving Repr, DecidableEq

/-- Modelled from the spec: the rendered message of an error value, the
string the source obtains from the Error method — the textual description
for a structured or plain error, and for a wrapping error its own leading
text followed by the rendering of the wrapped cause. -/
def goErrorString : GoError → String
  | .baseError _ message => message
  | .plainError message => message
  | .wrapError text inner => text ++ goErrorString inner

/-- Code extraction performed by ShouldIgnoreError: the code is taken only
when the outermost error value itself has the structured-error capability and
its base descriptor carries a non-empty code; otherwise the extracted code
stays the empty string. -/
def extractErrCode : GoError → String
  | .baseError code _ => if code == "" then "" else code
  | .plainError _ => ""
  | .wrapError _ _ => ""

/-- The error matcher of the source: an ordered sequence of ignore rules. -/
structure ErrorMatcher where
  patterns : List IgnoreErrorConfig
  deriving Repr, DecidableEq

/-- NewErrorMatcher from the source: a nil pattern slice is replaced by an
empty one. -/
def NewErrorMatcher (patterns : Option (List IgnoreErrorConfig)) : ErrorMatcher :=
  { patterns := patterns.getD [] }

/-- The matchString function of the source: dispatch on the match type with
empty-target and empty-pattern guards, and substring fallback both for the
default branch and for failing wildcard or regex compilation. -/
def matchString (target pattern : String) (matchType : ErrorMatchType) : Bool :=
  if target == "" || pattern == "" then false
  else if matchType == ErrorMatchTypeExact then target == pattern
  else if matchType == ErrorMatchTypeSubstring then sContains target pattern
  else if matchType == ErrorMatchTypeWildcard then
    match WildcardMatch pattern target with
    | .error _ => sContains target pattern
    | .ok matched => matched
  else if matchType == ErrorMatchTypeRegex then
    match compileRegex pattern with
    | .error _ => sContains target pattern
    | .ok re => reMatchString re target
  else sContains target pattern

/-- The matchesPattern function of the source: default the match type to
substring, require the code constraint when present, require the message
constraint when present, and demand at least one constraint. -/
def matchesPattern (errMsg errCode : String) (pattern : IgnoreErrorConfig) : Bool :=
  let matchType :=
    if pattern.MatchType == "" then ErrorMatchTypeSubstring else pattern.MatchType
  if pattern.Code != "" && !matchString errCode pattern.Code matchType then false
  else if pattern.Message != "" && !matchString errMsg pattern.Message matchType then false
  else pattern.Code != "" || pattern.Message != ""

/-- The ShouldIgnoreError method of the source: nil receiver, nil error and
an empty rule sequence all yield false; otherwise the message and code are
extracted once and the rules are scanned in order for a first match. -/
def ShouldIgnoreError (m : Option ErrorMatcher) (err : Option GoError) : Bool :=
  match m, err with
  | none, _ => false
  | some _, none => false
  | some matcher, some e =>
    if matcher.patterns.length == 0 then false
    else
      let errMsg := goErrorString e
      let errCode := extractErrCode e
      matcher.patterns.any fun pattern => matchesPattern errMsg errCode pattern

/-- The MergePatterns function of the source: concatenate upstream-specific,
then network-level, then project-wide rules, and build one matcher. -/
def MergePatterns (projectPatterns networkPatterns upstreamPatterns :
    List IgnoreErrorConfig) : ErrorMatcher :=
  NewErrorMatcher (some (upstreamPatterns ++ networkPatterns ++ projectPatterns))

/-- Anchored glob semantics: the pattern matches the entire target, with a
star standing for zero or more arbitrary characters and every other pattern
character standing for itself. -/
inductive GlobSem : List Char → List Char → Prop where
  | nil : GlobSem [] []
  | lit {p : Char} {ps ts : List Char} (hp : p ≠ '*') (rest : GlobSem ps ts) :
      GlobSem (p :: ps) (p :: ts)
  | star {ps w ts : List Char} (rest : GlobSem ps ts) :
      GlobSem ('*' :: ps) (w ++ ts)

/-- The suffix scan succeeds exactly when some split of the list has its
second half satisfying the predicate. -/
theorem anySuffix_iff (f : List Char → Bool) (ts : List Char) :
    anySuffix f ts = true ↔ ∃ w u : List Char, ts = w ++ u ∧ f u = true := by
  induction ts with
  | nil =>
    constructor
    · intro h
      exact ⟨[], [], rfl, h⟩
    · rintro ⟨w, u, hwu, hu⟩
      have hw : w = [] ∧ u = [] := by
        constructor <;> cases w <;> simp_all
      rcases hw with ⟨hw1, hw2⟩
      subst hw1; subst hw2
      simpa [anySuffix] using hu
  | cons t ts ih =>
    constructor
    · intro h
      rcases Bool.or_eq_true_iff.mp (by simpa [anySuffix] using h) with h1 | h2
      · exact ⟨[], t :: ts, rfl, h1⟩
      · rcases ih.mp h2 with ⟨w, u, hwu, hu⟩
        exact ⟨t :: w, u, by simp [hwu], hu⟩
    · rintro ⟨w, u, hwu, hu⟩
      cases w with
      | nil =>
        simp only [List.nil_append] at hwu
        subst hwu
        simp [anySuffix, hu]
      | cons w0 wtl =>
        simp only [List.cons_append, List.cons.injEq] at hwu
        rcases hwu with ⟨hw0, htl⟩
        subst hw0
        have : anySuffix f ts = true := ih.mpr ⟨wtl, u, htl, hu⟩
        simp [anySuffix, this]

/-- The executable glob matcher agrees with the anchored glob semantics. -/
theorem globMatch_iff_sem (ps ts : List Char) :
    globMatch ps ts = true ↔ GlobSem ps ts := by
  induction ps generalizing ts with
  | nil =>
    constructor
    · intro h
      have hts : ts = [] := by
        cases ts with
        | nil => rfl
        | cons t ts2 => simp [globMatch] at h
      subst hts
      exact GlobSem.nil
    · intro h
      cases h
      simp [globMatch]
  | cons p ps ih =>
    by_cases hp : p = '*'
    · subst hp
      have hstep : globMatch ('*' :: ps) ts = anySuffix (globMatch ps) ts := by
        simp [globMatch]
      rw [hstep, anySuffix_iff]
      constructor
      · rintro ⟨w, u, hwu, hu⟩
        subst hwu
        exact GlobSem.star ((ih u).mp hu)
      · intro h
        cases h with
        | lit hlit _ => exact absurd rfl hlit
        | star rest =>
          rename_i w' ts'
          exact ⟨w', ts', rfl, (ih ts').mpr rest⟩
    · constructor
      · intro h
        cases ts with
        | nil => simp [globMatch, hp] at h
        | cons t ts2 =>
          have hstep : globMatch (p :: ps) (t :: ts2) = (p == t && globMatch ps ts2) := by
            simp [globMatch, hp]
          rw [hstep] at h
          have hpt : p = t ∧ globMatch ps ts2 = true := by simpa using h
          rcases hpt with ⟨hpt1, hpt2⟩
          subst hpt1
          exact GlobSem.lit hp ((ih ts2).mp hpt2)
      · intro h
        cases h with
        | lit hlit rest =>
          have hm := (ih _).mpr rest
          simp [globMatch, hp, hm]
        | star rest => exact absurd rfl hp

/-- A prefix-match scan succeeds exactly when the regex matches some prefix
of the character list. -/
theorem rePrefixMatch_iff (s : List Char) (re : Regex) :
    rePrefixMatch re s = true ↔ ∃ p q : List Char, s = p ++ q ∧ reMatches re p = true := by
  induction s generalizing re with
  | nil =>
    constructor
    · intro h
      exact ⟨[], [], rfl, h⟩
    · rintro ⟨p, q, hpq, hm⟩
      have hp : p = [] := by cases p <;> simp_all
      subst hp
      simpa [rePrefixMatch, reMatches] using hm
  | cons c cs ih =>
    constructor
    · intro h
      rcases Bool.or_eq_true_iff.mp (by simpa [rePrefixMatch] using h) with h1 | h2
      · exact ⟨[], c :: cs, rfl, h1⟩
      · rcases (ih (re.deriv c)).mp h2 with ⟨p, q, hpq, hm⟩
        exact ⟨c :: p, q, by simp [hpq], by simpa [reMatches] using hm⟩
    · rintro ⟨p, q, hpq, hm⟩
      cases p with
      | nil =>
        simp only [List.nil_append] at hpq
        subst hpq
        simp only [reMatches] at hm
        simp [rePrefixMatch, hm]
      | cons p0 ptl =>
        simp only [List.cons_append, List.cons.injEq] at hpq
        rcases hpq with ⟨hp0, htl⟩
        subst hp0
        have : rePrefixMatch (re.deriv c) cs = true :=
          (ih (re.deriv c)).mpr ⟨ptl, q, htl, by simpa [reMatches] using hm⟩
        simp [rePrefixMatch, this]

/-- The search scan succeeds exactly when the regex matches a prefix of some
suffix of the character list. -/
theorem reSearch_iff_suffix (s : List Char) (re : Regex) :
    reSearch re s = true ↔
      ∃ pre rest : List Char, s = pre ++ rest ∧ rePrefixMatch re rest = true := by
  induction s with
  | nil =>
    constructor
    · intro h
      exact ⟨[], [], rfl, h⟩
    · rintro ⟨pre, rest, hpr, hm⟩
      have hp : pre = [] ∧ rest = [] := by
        constructor <;> cases pre <;> simp_all
      rcases hp with ⟨h1, h2⟩
      subst h1; subst h2
      simpa [reSearch, rePrefixMatch] using hm
  | cons c cs ih =>
    constructor
    · intro h
      rcases Bool.or_eq_true_iff.mp (by simpa [reSearch] using h) with h1 | h2
      · exact ⟨[], c :: cs, rfl, h1⟩
      · rcases ih.mp h2 with ⟨pre, rest, hpr, hm⟩
        exact ⟨c :: pre, rest, by simp [hpr], hm⟩
    · rintro ⟨pre, rest, hpr, hm⟩
      cases pre with
      | nil =>
        simp only [List.nil_append] at hpr
        subst hpr
        simp [reSearch, hm]
      | cons p0 ptl =>
        simp only [List.cons_append, List.cons.injEq] at hpr
        rcases hpr with ⟨hp0, htl⟩
        subst hp0
        have : reSearch re cs = true := ih.mpr ⟨ptl, rest, htl, hm⟩
        simp [reSearch, this]

/-- Unanchored search succeeds exactly when the regex matches some contiguous
region of the character list. -/
theorem reSearch_iff_parts (s : List Char) (re : Regex) :
    reSearch re s = true ↔
      ∃ pre mid post : List Char, s = pre ++ mid ++ post ∧ reMatches re mid = true := by
  rw [reSearch_iff_suffix]
  constructor
  · rintro ⟨pre, rest, hpr, hm⟩
    rcases (rePrefixMatch_iff rest re).mp hm with ⟨mid, post, hmp, hmid⟩
    exact ⟨pre, mid, post, by simp [hpr, hmp, List.append_assoc], hmid⟩
  · rintro ⟨pre, mid, post, hparts, hmid⟩
    refine ⟨pre, mid ++ post, by simp [hparts, List.append_assoc], ?_⟩
    exact (rePrefixMatch_iff (mid ++ post) re).mpr ⟨mid, post, rfl, hmid⟩

/-- The substring containment model agrees with the decomposition view: the
needle occurs iff the haystack splits around one occurrence of it. -/
theorem sContains_iff (s substr : String) :
    sContains s substr = true ↔
      ∃ pre post : List Char, s.data = pre ++ substr.data ++ post := by
  unfold sContains
  rw [anySuffix_iff]
  constructor
  · rintro ⟨w, u, hwu, hu⟩
    rcases List.isPrefixOf_iff_prefix.mp hu with ⟨t, ht⟩
    exact ⟨w, t, by simp [hwu, ← ht, List.append_assoc]⟩
  · rintro ⟨pre, post, hdecomp⟩
    exact ⟨pre, substr.data ++ post, by simpa [List.append_assoc] using hdecomp,
      List.isPrefixOf_iff_prefix.mpr ⟨post, rfl⟩⟩

/-- An empty target never matches, whatever the pattern and match type. -/
theorem matchString_empty_target (pattern : String) (mt : ErrorMatchType) :
    matchString "" pattern mt = false := by
  simp [matchString]

/-- Scanning a matcher built from a rule list is the boolean OR of the
single-rule evaluations over the extracted message and code. -/
theorem shouldIgnore_eq_any (l : List IgnoreErrorConfig) (e : GoError) :
    ShouldIgnoreError (some (ErrorMatcher.mk l)) (some e) =
      l.any fun pattern => matchesPattern (goErrorString e) (extractErrCode e) pattern := by
  cases l with
  | nil => rfl
  | cons r rs => simp [ShouldIgnoreError]

/-- A rule whose code constraint is present never matches when the extracted
code is empty. -/
theorem matchesPattern_code_rule_empty_code (r : IgnoreErrorConfig) (msg : String)
    (hc : r.Code ≠ "") : matchesPattern msg "" r = false := by
  have hc2 : (r.Code != "") = true := by simpa using hc
  simp [matchesPattern, hc2, matchString_empty_target]

/-- C1: ShouldIgnoreError returns false when the error is nil or the matcher
holds zero rules; otherwise it returns true exactly when at least one rule in
the matcher's sequence matches the message and code fields extracted from
the error, a pure OR across all rules. -/
theorem claim_shouldIgnore_or_over_rules (m : ErrorMatcher) (e : GoError) :
    ShouldIgnoreError (some m) none = false ∧
    (m.patterns = [] → ShouldIgnoreError (some m) (some e) = false) ∧
    (ShouldIgnoreError (some m) (some e) = true ↔
      ∃ r ∈ m.patterns,
        matchesPattern (goErrorString e) (extractErrCode e) r = true) := by
  obtain ⟨l⟩ := m
  refine ⟨rfl, ?_, ?_⟩
  · intro h
    simp only at h
    subst h
    rfl
  · rw [shouldIgnore_eq_any, List.any_eq_true]

/-- Witness for C1 at a concrete zero-rule matcher and concrete error. -/
theorem claim_shouldIgnore_or_over_rules_witness :
    ShouldIgnoreError (some (ErrorMatcher.mk [])) (some (GoError.plainError "some error")) = false :=
  (claim_shouldIgnore_or_over_rules (ErrorMatcher.mk [])
    (GoError.plainError "some error")).2.1 rfl

/-- C2: a rule carrying both a code pattern and a message pattern matches
exactly when the code pattern matches the extracted code and the message
pattern matches the extracted message, both under the rule's effective match
type; hence making either field alone non-matching makes the rule fail. -/
theorem claim_rule_requires_code_and_message (msg code : String) (r : IgnoreErrorConfig)
    (hc : r.Code ≠ "") (hm : r.Message ≠ "") :
    matchesPattern msg code r =
      (matchString code r.Code
          (if r.MatchType == "" then ErrorMatchTypeSubstring else r.MatchType) &&
        matchString msg r.Message
          (if r.MatchType == "" then ErrorMatchTypeSubstring else r.MatchType)) := by
  have hc2 : (r.Code != "") = true := by simpa using hc
  have hm2 : (r.Message != "") = true := by simpa using hm
  simp only [matchesPattern]
  set mtv := (if r.MatchType == "" then ErrorMatchTypeSubstring else r.MatchType) with hmtv
  cases hms : matchString code r.Code mtv <;>
    cases hmm : matchString msg r.Message mtv <;>
    simp [hc2, hm2, hms, hmm]

/-- Witness for C2 at a concrete rule constraining both fields. -/
theorem claim_rule_requires_code_and_message_witness :
    matchesPattern "rate limit exceeded" "ErrEndpointCapacityExceeded"
      (IgnoreErrorConfig.mk "ErrEndpointCapacityExceeded" "rate limit" "substring") = true := by
  rw [claim_rule_requires_code_and_message "rate limit exceeded" "ErrEndpointCapacityExceeded"
    (IgnoreErrorConfig.mk "ErrEndpointCapacityExceeded" "rate limit" "substring")
    (by decide) (by decide)]
  decide

/-- C3: MergePatterns builds the matcher over upstream rules first, then
network rules, then project rules, and the merged predicate is the boolean
union of the three per-tier predicates, so the outcome is independent of the
concatenation order of the tiers. -/
theorem claim_merge_union (proj net ups : List IgnoreErrorConfig) :
    (MergePatterns proj net ups).patterns = ups ++ net ++ proj ∧
    ∀ e : GoError,
      ShouldIgnoreError (some (MergePatterns proj net ups)) (some e) =
        (ShouldIgnoreError (some (NewErrorMatcher (some ups))) (some e) ||
          ShouldIgnoreError (some (NewErrorMatcher (some net))) (some e) ||
          ShouldIgnoreError (some (NewErrorMatcher (some proj))) (some e)) := by
  refine ⟨rfl, ?_⟩
  intro e
  have hmerge : MergePatterns proj net ups = ErrorMatcher.mk (ups ++ net ++ proj) := rfl
  have h1 : NewErrorMatcher (some ups) = ErrorMatcher.mk ups := rfl
  have h2 : NewErrorMatcher (some net) = ErrorMatcher.mk net := rfl
  have h3 : NewErrorMatcher (some proj) = ErrorMatcher.mk proj := rfl
  rw [hmerge, h1, h2, h3, shouldIgnore_eq_any, shouldIgnore_eq_any,
    shouldIgnore_eq_any, shouldIgnore_eq_any]
  simp [List.any_append, Bool.or_assoc]

/-- C4: the code is extracted only from the outermost error value: a
code-only rule makes the matcher reject the decorated wrapper of a structured
error while still accepting the unwrapped structured error whenever its code
matches the pattern, and a code-only rule never matches an error value that
exposes no non-empty code. -/
theorem claim_code_outermost_only (r : IgnoreErrorConfig) (c m w : String)
    (hc : r.Code ≠ "") (hm : r.Message = "") (hcode : c ≠ "") :
    extractErrCode (GoError.wrapError w (GoError.baseError c m)) = "" ∧
    ShouldIgnoreError (some (NewErrorMatcher (some [r])))
      (some (GoError.wrapError w (GoError.baseError c m))) = false ∧
    ShouldIgnoreError (some (NewErrorMatcher (some [r])))
      (some (GoError.baseError c m)) =
      matchString c r.Code
        (if r.MatchType == "" then ErrorMatchTypeSubstring else r.MatchType) ∧
    ∀ e : GoError, extractErrCode e = "" →
      ShouldIgnoreError (some (NewErrorMatcher (some [r]))) (some e) = false := by
  have hnm : NewErrorMatcher (some [r]) = ErrorMatcher.mk [r] := rfl
  have hc2 : (r.Code != "") = true := by simpa using hc
  have hm2 : (r.Message != "") = false := by simp [hm]
  refine ⟨rfl, ?_, ?_, ?_⟩
  · rw [hnm, shouldIgnore_eq_any]
    simp [matchesPattern_code_rule_empty_code r _ hc, extractErrCode]
  · rw [hnm, shouldIgnore_eq_any]
    have hext : extractErrCode (GoError.baseError c m) = c := by
      have : (c == "") = false := by simpa using hcode
      simp [extractErrCode, this]
    simp only [List.any_cons, List.any_nil, Bool.or_false, hext, goErrorString]
    simp only [matchesPattern, hc2, hm2, Bool.true_and, Bool.false_and,
      if_false, Bool.true_or]
    set mtv := (if r.MatchType == "" then ErrorMatchTypeSubstring else r.MatchType) with hmtv
    cases hms : matchString c r.Code mtv <;> simp [hms]
  · intro e he
    rw [hnm, shouldIgnore_eq_any, he]
    simp [matchesPattern_code_rule_empty_code r _ hc]

/-- Witness for C4 at a concrete code-only rule, wrapped and unwrapped. -/
theorem claim_code_outermost_only_witness :
    ShouldIgnoreError
      (some (NewErrorMatcher (some [IgnoreErrorConfig.mk "ErrUpstreamRequest" "" "exact"])))
      (some (GoError.wrapError "wrapped: "
        (GoError.baseError "ErrUpstreamRequest" "upstream failed"))) = false ∧
    ShouldIgnoreError
      (some (NewErrorMatcher (some [IgnoreErrorConfig.mk "ErrUpstreamRequest" "" "exact"])))
      (some (GoError.baseError "ErrUpstreamRequest" "upstream failed")) = true := by
  have h := claim_code_outermost_only (IgnoreErrorConfig.mk "ErrUpstreamRequest" "" "exact")
    "ErrUpstreamRequest" "upstream failed" "wrapped: " (by decide) rfl (by decide)
  refine ⟨h.2.1, ?_⟩
  rw [h.2.2.1]
  decide

/-- C5: wildcard matching realizes anchored glob semantics where the star
matches zero or more arbitrary characters and the entire target must be
consumed; the spec pattern matches both spec targets and not the reversed
one; and in the modelled wildcard language the primitive never reports a
structurally invalid pattern, so matchString never needs its substring
fallback and never raises. -/
theorem claim_wildcard_semantics :
    (∀ ps ts : List Char, globMatch ps ts = true ↔ GlobSem ps ts) ∧
    (∀ pattern target : String,
        WildcardMatch pattern target = Except.ok (globMatch pattern.data target.data)) ∧
    matchString "transaction is underpriced" "transaction*underpriced"
      ErrorMatchTypeWildcard = true ∧
    matchString "transaction underpriced" "transaction*underpriced"
      ErrorMatchTypeWildcard = true ∧
    matchString "underpriced transaction" "transaction*underpriced"
      ErrorMatchTypeWildcard = false :=
  ⟨globMatch_iff_sem, fun _ _ => rfl, by decide, by decide, by decide⟩

/-- C6: regex matching is unanchored search, true exactly when the compiled
pattern matches some contiguous region of the target; when compilation fails
matchString does not raise and instead returns substring containment; and the
concrete invalid pattern fails to compile yet matches a target containing it
literally. -/
theorem claim_regex_semantics :
    (∀ (re : Regex) (s : List Char),
        reSearch re s = true ↔
          ∃ pre mid post : List Char,
            s = pre ++ mid ++ post ∧ reMatches re mid = true) ∧
    (∀ (target pattern : String) (re : Regex),
        compileRegex pattern = Except.ok re → target ≠ "" → pattern ≠ "" →
        (matchString target pattern ErrorMatchTypeRegex = true ↔
          ∃ pre mid post : List Char,
            target.data = pre ++ mid ++ post ∧ reMatches re mid = true)) ∧
    (∀ target pattern : String,
        (∃ msg, compileRegex pattern = Except.error msg) →
        matchString target pattern ErrorMatchTypeRegex = sContains target pattern) ∧
    (∃ msg, compileRegex "[invalid(regex" = Except.error msg) ∧
    matchString "this contains [invalid(regex pattern" "[invalid(regex"
      ErrorMatchTypeRegex = true := by
  have e1 : (ErrorMatchTypeRegex == ErrorMatchTypeExact) = false := by decide
  have e2 : (ErrorMatchTypeRegex == ErrorMatchTypeSubstring) = false := by decide
  have e3 : (ErrorMatchTypeRegex == ErrorMatchTypeWildcard) = false := by decide
  have e4 : (ErrorMatchTypeRegex == ErrorMatchTypeRegex) = true := by decide
  refine ⟨fun re s => reSearch_iff_parts s re, ?_, ?_,
    ⟨"missing closing bracket", rfl⟩, by decide⟩
  · intro target pattern re hcomp ht hp
    have ht2 : (target == "") = false := by simpa using ht
    have hp2 : (pattern == "") = false := by simpa using hp
    have hms : matchString target pattern ErrorMatchTypeRegex = reMatchString re target := by
      simp [matchString, ht2, hp2, e1, e2, e3, e4, hcomp]
    rw [hms]
    exact reSearch_iff_parts target.data re
  · intro target pattern hfail
    rcases hfail with ⟨msg, hmsg⟩
    by_cases hpat : pattern = ""
    · subst hpat
      have hok : compileRegex "" = Except.ok Regex.epsilon := rfl
      rw [hok] at hmsg
      cases hmsg
    · by_cases ht : target = ""
      · subst ht
        rw [matchString_empty_target]
        cases hd : pattern.data with
        | nil =>
          have hempty : pattern = "" :=
            String.ext (show pattern.data = String.data "" by rw [hd])
          exact absurd hempty hpat
        | cons c cs =>
          simp [sContains, anySuffix, hd, List.isPrefixOf]
      · have ht2 : (target == "") = false := by simpa using ht
        have hp2 : (pattern == "") = false := by simpa using hpat
        simp [matchString, ht2, hp2, e1, e2, e3, e4, hmsg]

/-- Witness for C6 at a concrete compiled pattern and a concrete failing
pattern. -/
theorem claim_regex_semantics_witness :
    (matchString "xabc" "a.c" ErrorMatchTypeRegex = true ↔
      ∃ pre mid post : List Char,
        "xabc".data = pre ++ mid ++ post ∧
          reMatches (Regex.concat (Regex.char 'a')
            (Regex.concat Regex.anyChar
              (Regex.concat (Regex.char 'c') Regex.epsilon))) mid = true) ∧
    matchString "boom" "[invalid(regex" ErrorMatchTypeRegex =
      sContains "boom" "[invalid(regex" :=
  ⟨claim_regex_semantics.2.1 "xabc" "a.c" _ rfl (by decide) (by decide),
    claim_regex_semantics.2.2.1 "boom" "[invalid(regex"
      ⟨"missing closing bracket", rfl⟩⟩

/-- C7: exact matching of a non-empty target against a non-empty pattern is
byte-for-byte equality, so any difference, mere containment included, yields
false. -/
theorem claim_exact_match (target pattern : String)
    (ht : target ≠ "") (hp : pattern ≠ "") :
    (matchString target pattern ErrorMatchTypeExact = true ↔ target = pattern) ∧
    (target ≠ pattern → matchString target pattern ErrorMatchTypeExact = false) := by
  have ht2 : (target == "") = false := by simpa using ht
  have hp2 : (pattern == "") = false := by simpa using hp
  have e4 : (ErrorMatchTypeExact == ErrorMatchTypeExact) = true := by decide
  have hms : matchString target pattern ErrorMatchTypeExact = (target == pattern) := by
    simp [matchString, ht2, hp2, e4]
  constructor
  · rw [hms]
    exact ⟨fun h => by simpa using h, fun h => by simpa using h⟩
  · intro hne
    rw [hms]
    simpa using hne

/-- Witness for C7 at concrete equal strings. -/
theorem claim_exact_match_witness :
    matchString "transaction underpriced" "transaction underpriced"
      ErrorMatchTypeExact = true :=
  (claim_exact_match "transaction underpriced" "transaction underpriced"
    (by decide) (by decide)).1.mpr rfl

/-- C8: substring matching of a non-empty pattern against a non-empty target
is case-sensitive containment anywhere in the target, and every match type
other than exact, wildcard and regex, the absent value included, is evaluated
with exactly these substring semantics. -/
theorem claim_substring_and_default (target pattern : String) (mt : ErrorMatchType)
    (ht : target ≠ "") (hp : pattern ≠ "")
    (h1 : mt ≠ ErrorMatchTypeExact) (h2 : mt ≠ ErrorMatchTypeWildcard)
    (h3 : mt ≠ ErrorMatchTypeRegex) :
    matchString target pattern mt = matchString target pattern ErrorMatchTypeSubstring ∧
    (matchString target pattern ErrorMatchTypeSubstring = true ↔
      ∃ pre post : List Char, target.data = pre ++ pattern.data ++ post) := by
  have ht2 : (target == "") = false := by simpa using ht
  have hp2 : (pattern == "") = false := by simpa using hp
  have s1 : (ErrorMatchTypeSubstring == ErrorMatchTypeExact) = false := by decide
  have s2 : (ErrorMatchTypeSubstring == ErrorMatchTypeSubstring) = true := by decide
  have hsub : matchString target pattern ErrorMatchTypeSubstring = sContains target pattern := by
    simp [matchString, ht2, hp2, s1, s2]
  constructor
  · by_cases hmt : mt = ErrorMatchTypeSubstring
    · subst hmt
      rfl
    · have hb1 : (mt == ErrorMatchTypeExact) = false := by simpa using h1
      have hb2 : (mt == ErrorMatchTypeWildcard) = false := by simpa using h2
      have hb3 : (mt == ErrorMatchTypeRegex) = false := by simpa using h3
      have hb4 : (mt == ErrorMatchTypeSubstring) = false := by simpa using hmt
      rw [hsub]
      simp [matchString, ht2, hp2, hb1, hb2, hb3, hb4]
  · rw [hsub]
    exact sContains_iff target pattern

/-- Witness for C8 at a concrete unrecognized match type. -/
theorem claim_substring_and_default_witness :
    matchString "error: transaction underpriced for account" "transaction underpriced"
      "bogus" =
      matchString "error: transaction underpriced for account" "transaction underpriced"
        ErrorMatchTypeSubstring :=
  (claim_substring_and_default "error: transaction underpriced for account"
    "transaction underpriced" "bogus" (by decide) (by decide) (by decide) (by decide)
    (by decide)).1

/-- C9: an empty target or an empty pattern never matches under any match
type, and a rule with both code and message empty matches nothing, without
raising. -/
theorem claim_empty_never_matches (target pattern msg code : String)
    (mt : ErrorMatchType) (r : IgnoreErrorConfig) :
    (target = "" ∨ pattern = "" → matchString target pattern mt = false) ∧
    (r.Code = "" → r.Message = "" → matchesPattern msg code r = false) := by
  constructor
  · intro h
    rcases h with h | h <;> subst h <;> simp [matchString]
  · intro hc hm
    have hc2 : (r.Code != "") = false := by simp [hc]
    have hm2 : (r.Message != "") = false := by simp [hm]
    simp [matchesPattern, hc2, hm2]

/-- Witness for C9 at a concrete empty target and a concrete empty rule. -/
theorem claim_empty_never_matches_witness :
    matchString "" "nonce" ErrorMatchTypeSubstring = false ∧
    matchesPattern "some error" "SOMECODE" (IgnoreErrorConfig.mk "" "" "exact") = false :=
  ⟨(claim_empty_never_matches "" "nonce" "x" "y" ErrorMatchTypeSubstring
      (IgnoreErrorConfig.mk "" "" "exact")).1 (Or.inl rfl),
    (claim_empty_never_matches "" "nonce" "some error" "SOMECODE"
      ErrorMatchTypeSubstring (IgnoreErrorConfig.mk "" "" "exact")).2 rfl rfl⟩

/-- C10: a nil matcher receiver never ignores anything, a matcher built from
a nil rule list equals one built from the empty rule list, and such a matcher
ignores no error. -/
theorem claim_nil_matcher_safe :
    (∀ err : Option GoError, ShouldIgnoreError none err = false) ∧
    NewErrorMatcher none = NewErrorMatcher (some []) ∧
    (∀ err : Option GoError,
        ShouldIgnoreError (some (NewErrorMatcher none)) err = false) := by
  refine ⟨fun err => ?_, rfl, fun err => ?_⟩
  · cases err <;> rfl
  · cases err <;> rfl

end Erpc
